import Mathlib

/-!
Shallow embedding of the stock-trading-bot simulation core
(`portfolio.py`, `strategies.py`, `backtest.py`, `optimizer.py`) together
with theorems checking the specification claims.

Modelling conventions:
* Python floats are modelled by `ℚ`.  Division on `ℚ` is total with
  `x / 0 = 0`; everywhere the source guards a division the guard is
  reproduced, so the convention only shows at points the source itself
  leaves undefined (float `inf`/`nan`).  Where the source can produce a
  float `nan` that later flows into a comparison (pandas rolling windows,
  RSI with zero gain and loss), the value is modelled as `Option ℚ` with
  `none` for `nan`, and comparisons against `none` are `false` — exactly
  the IEEE comparison semantics the Python code relies on.
* `numpy.sqrt` / `pandas.std` are irrational; functions that need a square
  root take an explicit `sqrtFn : ℚ → ℚ` argument standing for the
  floating-point square root.  No claim depends on its values.
* Python `dict`s (insertion-ordered, unique keys) are association lists.
* Timestamps/dates are `ℕ`; log/rationale strings are dropped (trade
  "reason" strings are kept as a boolean marker distinguishing stop-loss
  exits from signal trades, which is the only content claims depend on).
-/

namespace StockBot

/-- Trading signal (the strings `"BUY"`/`"SELL"`/`"HOLD"` in the source). -/
inductive Signal where
  | BUY
  | SELL
  | HOLD
deriving DecidableEq, Repr

/-- Trade action recorded in trade logs (`"BUY"`/`"SELL"`). -/
inductive TAct where
  | BUY
  | SELL
deriving DecidableEq, Repr

/-- `config.INITIAL_CASH`. -/
def INITIAL_CASH : ℚ := 10000

/-- `config.MAX_POSITION_SIZE` (max shares per symbol). -/
def MAX_POSITION_SIZE : ℤ := 10

/-- `Position.atr_multiplier` (set to 2.5 in `Position.__init__`). -/
def atr_multiplier : ℚ := 2.5

/-- `portfolio.Position`: one symbol's aggregated position.
The Python object sets only `highest_price` (long) or `lowest_price`
(short) in `__init__`; we carry both fields, initialising both to the
entry price — the branch of `update_price` taken for the position's sign
never reads the other one. -/
structure Position where
  symbol : String
  quantity : ℤ
  entry_price : ℚ
  current_price : ℚ
  atr : ℚ
  stop_loss_price : ℚ
  highest_price : ℚ
  lowest_price : ℚ
deriving DecidableEq, Repr

/-- `Position.__init__`.  Python's `atr or (entry_price * 0.02)` treats both
`None` and `0.0` as missing, so an explicit ATR of `0` also falls back to
2% of the entry price. -/
def Position.init (symbol : String) (quantity : ℤ) (entry_price : ℚ)
    (atr? : Option ℚ) : Position :=
  let a : ℚ :=
    match atr? with
    | none => entry_price * 0.02
    | some x => if x = 0 then entry_price * 0.02 else x
  if 0 < quantity then
    { symbol := symbol
      quantity := quantity
      entry_price := entry_price
      current_price := entry_price
      atr := a
      stop_loss_price := entry_price - a * atr_multiplier
      highest_price := entry_price
      lowest_price := entry_price }
  else
    { symbol := symbol
      quantity := quantity
      entry_price := entry_price
      current_price := entry_price
      atr := a
      stop_loss_price := entry_price + a * atr_multiplier
      highest_price := entry_price
      lowest_price := entry_price }

/-- `Position.update_price`: update mark price and ratchet the trailing stop. -/
def Position.update_price (pos : Position) (price : ℚ) : Position :=
  let p := { pos with current_price := price }
  if 0 < p.quantity then
    if p.highest_price < price then
      let new_stop := price - p.atr * atr_multiplier
      if p.stop_loss_price < new_stop then
        { p with highest_price := price, stop_loss_price := new_stop }
      else
        { p with highest_price := price }
    else p
  else
    if price < p.lowest_price then
      let new_stop := price + p.atr * atr_multiplier
      if new_stop < p.stop_loss_price then
        { p with lowest_price := price, stop_loss_price := new_stop }
      else
        { p with lowest_price := price }
    else p

/-- `utils.calculate_pnl`. -/
def calculate_pnl (entry_price current_price : ℚ) (quantity : ℤ) : ℚ :=
  (current_price - entry_price) * (quantity : ℚ)

/-- `Position.get_pnl`. -/
def Position.get_pnl (pos : Position) : ℚ :=
  calculate_pnl pos.entry_price pos.current_price pos.quantity

/-- `Position.get_pnl_percent`. -/
def Position.get_pnl_percent (pos : Position) : ℚ :=
  if pos.entry_price = 0 then 0
  else (pos.current_price - pos.entry_price) / pos.entry_price * 100

/-- `Position.check_stop_loss`. -/
def Position.check_stop_loss (pos : Position) : Bool :=
  if 0 < pos.quantity then pos.current_price ≤ pos.stop_loss_price
  else if pos.quantity < 0 then pos.stop_loss_price ≤ pos.current_price
  else false

/-- A `Portfolio.trade_history` entry (timestamp omitted). -/
structure TradeRec where
  symbol : String
  action : TAct
  quantity : ℤ
  price : ℚ
deriving DecidableEq, Repr

/-- `portfolio.Portfolio`.  `positions` is the symbol → `Position` dict. -/
structure Portfolio where
  initial_cash : ℚ
  cash : ℚ
  positions : List (String × Position)
  trade_history : List TradeRec
deriving DecidableEq, Repr

/-- Dict read: `self.positions.get(symbol)`. -/
def lookupPos : List (String × Position) → String → Option Position
  | [], _ => none
  | e :: rest, s => if e.1 = s then some e.2 else lookupPos rest s

/-- Dict write `self.positions[symbol] = pos`: replace the (unique) entry,
or append a fresh one. -/
def setPos : List (String × Position) → String → Position → List (String × Position)
  | [], s, p => [(s, p)]
  | e :: rest, s, p => if e.1 = s then (s, p) :: rest else e :: setPos rest s p

/-- Dict delete `del self.positions[symbol]`. -/
def erasePos : List (String × Position) → String → List (String × Position)
  | [], _ => []
  | e :: rest, s => if e.1 = s then rest else e :: erasePos rest s

/-- Dict read on a price mapping. -/
def lookupQ : List (String × ℚ) → String → Option ℚ
  | [], _ => none
  | e :: rest, s => if e.1 = s then some e.2 else lookupQ rest s

/-- `Portfolio.__init__`.  `initial_cash or INITIAL_CASH` again treats `0`
as missing. -/
def Portfolio.init (initial_cash? : Option ℚ) : Portfolio :=
  let ic : ℚ :=
    match initial_cash? with
    | none => INITIAL_CASH
    | some x => if x = 0 then INITIAL_CASH else x
  { initial_cash := ic, cash := ic, positions := [], trade_history := [] }

/-- `Portfolio.add_position`. -/
def Portfolio.add_position (pf : Portfolio) (symbol : String) (quantity : ℤ)
    (price : ℚ) (atr? : Option ℚ) : Portfolio :=
  let positions :=
    match lookupPos pf.positions symbol with
    | some pos =>
        let total_cost := pos.entry_price * (pos.quantity : ℚ) + price * (quantity : ℚ)
        let total_quantity := pos.quantity + quantity
        let pos :=
          if total_quantity ≠ 0 then
            { pos with entry_price := total_cost / (total_quantity : ℚ) }
          else pos
        let pos := { pos with quantity := pos.quantity + quantity }
        let pos :=
          match atr? with
          | some a => { pos with atr := (pos.atr + a) / 2 }
          | none => pos
        setPos pf.positions symbol pos
    | none => pf.positions ++ [(symbol, Position.init symbol quantity price atr?)]
  let cost := (quantity : ℚ) * price
  let cash := if 0 < quantity then pf.cash - cost else pf.cash + |cost|
  { pf with
    positions := positions
    cash := cash
    trade_history := pf.trade_history ++
      [{ symbol := symbol
         action := if 0 < quantity then TAct.BUY else TAct.SELL
         quantity := |quantity|
         price := price }] }

/-- `Portfolio.remove_position`.  A missing symbol is a logged no-op.  Note
the source's sign convention: the cash adjustment reads `quantity` as a
signed trade delta (negative = sell) while the position update computes
`pos.quantity -= quantity`. -/
def Portfolio.remove_position (pf : Portfolio) (symbol : String) (quantity : ℤ)
    (price : ℚ) : Portfolio :=
  match lookupPos pf.positions symbol with
  | none => pf
  | some pos =>
      let quantity := if |pos.quantity| < |quantity| then pos.quantity else quantity
      let proceeds := (|quantity| : ℚ) * price
      let cash := if quantity < 0 then pf.cash + proceeds else pf.cash - proceeds
      let newq := pos.quantity - quantity
      let positions :=
        if newq = 0 then erasePos pf.positions symbol
        else setPos pf.positions symbol { pos with quantity := newq }
      { pf with
        cash := cash
        positions := positions
        trade_history := pf.trade_history ++
          [{ symbol := symbol
             action := if quantity < 0 then TAct.SELL else TAct.BUY
             quantity := |quantity|
             price := price }] }

/-- `Portfolio.update_prices`: iterate the price dict in order, updating
each held symbol. -/
def Portfolio.update_prices : Portfolio → List (String × ℚ) → Portfolio
  | pf, [] => pf
  | pf, sp :: rest =>
      match lookupPos pf.positions sp.1 with
      | some pos =>
          Portfolio.update_prices
            { pf with positions := setPos pf.positions sp.1 (pos.update_price sp.2) }
            rest
      | none => Portfolio.update_prices pf rest

/-- `Portfolio.get_position_quantity`. -/
def Portfolio.get_position_quantity (pf : Portfolio) (symbol : String) : ℤ :=
  match lookupPos pf.positions symbol with
  | some pos => pos.quantity
  | none => 0

/-- `Portfolio.get_total_value`.  The source mutates each priced position
via `update_price` while summing, so the updated portfolio is returned
alongside the value. -/
def Portfolio.get_total_value (pf : Portfolio) (prices : List (String × ℚ)) :
    ℚ × Portfolio :=
  let positions := pf.positions.map fun e =>
    (e.1,
      match lookupQ prices e.1 with
      | some price => e.2.update_price price
      | none => e.2)
  (positions.foldl (fun acc e => acc + e.2.current_price * (e.2.quantity : ℚ)) pf.cash,
   { pf with positions := positions })

/-- `Portfolio.get_total_pnl`. -/
def Portfolio.get_total_pnl (pf : Portfolio) (prices : List (String × ℚ)) :
    ℚ × Portfolio :=
  let pf := pf.update_prices prices
  (pf.positions.foldl (fun acc e => acc + e.2.get_pnl) 0, pf)

/-- `Portfolio.get_total_pnl_percent`. -/
def Portfolio.get_total_pnl_percent (pf : Portfolio) (prices : List (String × ℚ)) :
    ℚ × Portfolio :=
  let r := pf.get_total_value prices
  (if r.2.initial_cash = 0 then 0
   else (r.1 - r.2.initial_cash) / r.2.initial_cash * 100, r.2)

/-- The alert accumulation of `check_risk_limits`, in iteration order. -/
def collectAlerts : List (String × Position) → List String
  | [] => []
  | e :: rest =>
      if e.2.check_stop_loss then e.1 :: collectAlerts rest else collectAlerts rest

/-- `Portfolio.check_risk_limits`: update prices, then collect the symbols
whose trailing stop is breached.  (The source formats each alert as
`"SYM: STOP_LOSS …"` and the backtest splits the symbol back out with
`alert.split(":")[0]`; we model the alert by the symbol itself.  The
unused `symbol` parameter of the Python method is dropped.) -/
def Portfolio.check_risk_limits (pf : Portfolio) (prices : List (String × ℚ)) :
    List String × Portfolio :=
  let pf := pf.update_prices prices
  (collectAlerts pf.positions, pf)

/-- Repeated `update_price` calls (a price path applied to one position). -/
def updateMany (pos : Position) (prices : List ℚ) : Position :=
  prices.foldl Position.update_price pos

/-! ### Strategy layer (`strategies.py`)

Price history is the list of closes in chronological order (most recent
last), i.e. the `close` column of the DataFrame slice handed to a
strategy. -/

/-- Sum of a list of rationals. -/
def listSum (l : List ℚ) : ℚ := l.foldl (· + ·) 0

/-- The last `n` elements of a list (the rolling window ending at the
last row). -/
def lastN (l : List ℚ) (n : ℕ) : List ℚ := l.drop (l.length - n)

/-- `calculate_sma` evaluated at the last row: `rolling(period).mean()`
is `nan` (here `none`) until `period` rows exist. -/
def smaLast (closes : List ℚ) (period : ℕ) : Option ℚ :=
  if 0 < period ∧ period ≤ closes.length then
    some (listSum (lastN closes period) / (period : ℚ))
  else none

/-- `data['close'].diff()` without its leading `nan` row. -/
def diffs (closes : List ℚ) : List ℚ :=
  (closes.zip closes.tail).map fun p => p.2 - p.1

/-- `delta.where(delta > 0, 0)`: the leading `nan` delta compares false
against `0` and is replaced by `0`, so the gains series starts with `0`. -/
def gains (closes : List ℚ) : List ℚ :=
  0 :: (diffs closes).map fun d => if 0 < d then d else 0

/-- `-delta.where(delta < 0, 0)`: magnitudes of the negative deltas. -/
def losses (closes : List ℚ) : List ℚ :=
  0 :: (diffs closes).map fun d => if d < 0 then -d else 0

/-- `calculate_rsi` at the last row.  `rs = gain/loss` in floats gives
`inf` (so RSI `100`) when the loss mean is zero but the gain mean is
positive, and `nan` (`none`) when both are zero. -/
def rsiLast (closes : List ℚ) (period : ℕ) : Option ℚ :=
  if 0 < period ∧ period ≤ closes.length then
    let g := listSum (lastN (gains closes) period) / (period : ℚ)
    let l := listSum (lastN (losses closes) period) / (period : ℚ)
    if l = 0 then (if g = 0 then none else some 100)
    else some (100 - 100 / (1 + g / l))
  else none

/-- `<` under float-`nan` semantics (`none` compares false). -/
def oLT (a b : Option ℚ) : Bool :=
  match a, b with
  | some x, some y => decide (x < y)
  | _, _ => false

/-- `≤` under float-`nan` semantics. -/
def oLE (a b : Option ℚ) : Bool :=
  match a, b with
  | some x, some y => decide (x ≤ y)
  | _, _ => false

/-- `>` under float-`nan` semantics. -/
def oGT (a b : Option ℚ) : Bool :=
  match a, b with
  | some x, some y => decide (y < x)
  | _, _ => false

/-- `≥` under float-`nan` semantics. -/
def oGE (a b : Option ℚ) : Bool :=
  match a, b with
  | some x, some y => decide (y ≤ x)
  | _, _ => false

-- `config.STRATEGY_CONFIG` defaults.
namespace STRATEGY_CONFIG

def sma_short : ℕ := 5
def sma_long : ℕ := 20
def ema_short : ℕ := 12
def ema_long : ℕ := 26
def rsi_period : ℕ := 14
def rsi_oversold : ℚ := 30
def rsi_overbought : ℚ := 70
def bollinger_period : ℕ := 20
def bollinger_std : ℚ := 2
def trend_following : Bool := false
def crossover_only : Bool := true

end STRATEGY_CONFIG

/-- `config.USE_SENTIMENT_ANALYSIS`. -/
def USE_SENTIMENT_ANALYSIS : Bool := false

/-- Result of a strategy call: the signal and the numeric indicator dict
(`nan` values as `none`; rationale strings are presentation and dropped,
as is the `reason`-only dict of the insufficient-data early return). -/
structure StratResult where
  signal : Signal
  indicators : List (String × Option ℚ)
deriving DecidableEq, Repr

/-- `sma_crossover_strategy`.  The window sizes and the behaviour flags
are read from the (optimizer-mutable) `STRATEGY_CONFIG`; they are
parameters here, standing for that global state at call time, while the
RSI period parameter models the `rsi_period` key. -/
def sma_crossover_strategy (closes : List ℚ) (short_window long_window rsi_period : ℕ)
    (trend_following crossover_only : Bool) : StratResult :=
  if closes.length < long_window then ⟨Signal.HOLD, []⟩
  else
    let current_rsi : Option ℚ :=
      if rsi_period ≤ closes.length then rsiLast closes rsi_period else some 50
    let current_short := smaLast closes short_window
    let current_long := smaLast closes long_window
    let prev_short :=
      if 1 < closes.length then smaLast closes.dropLast short_window else current_short
    let prev_long :=
      if 1 < closes.length then smaLast closes.dropLast long_window else current_long
    let signal :=
      if crossover_only || !trend_following then
        if oGT current_short current_long && oLE prev_short prev_long then
          if oLT current_rsi (some 70) then Signal.BUY else Signal.HOLD
        else if oLT current_short current_long && oGE prev_short prev_long then
          if oGT current_rsi (some 30) then Signal.SELL else Signal.HOLD
        else Signal.HOLD
      else
        if oGT current_short current_long then
          if oLT current_rsi (some 70) then Signal.BUY else Signal.HOLD
        else if oLT current_short current_long then
          if oGT current_rsi (some 30) then Signal.SELL else Signal.HOLD
        else Signal.HOLD
    ⟨signal, [("SMA_short", current_short), ("SMA_long", current_long),
              ("RSI", current_rsi), ("Price", closes.getLast?)]⟩

/-- `calculate_ema` at the last row: `ewm(span, adjust=False).mean()`,
the recursion `e₀ = c₀`, `eₜ = α·cₜ + (1-α)·eₜ₋₁` with `α = 2/(span+1)`. -/
def emaLast (closes : List ℚ) (span : ℕ) : Option ℚ :=
  let α : ℚ := 2 / ((span : ℚ) + 1)
  match closes with
  | [] => none
  | c :: rest => some (rest.foldl (fun e x => α * x + (1 - α) * e) c)

/-- `ema_crossover_strategy`. -/
def ema_crossover_strategy (closes : List ℚ) (short_window long_window rsi_period : ℕ)
    (trend_following crossover_only : Bool) : StratResult :=
  if closes.length < long_window then ⟨Signal.HOLD, []⟩
  else
    let current_rsi : Option ℚ :=
      if rsi_period ≤ closes.length then rsiLast closes rsi_period else some 50
    let current_short := emaLast closes short_window
    let current_long := emaLast closes long_window
    let prev_short :=
      if 1 < closes.length then emaLast closes.dropLast short_window else current_short
    let prev_long :=
      if 1 < closes.length then emaLast closes.dropLast long_window else current_long
    let signal :=
      if crossover_only || !trend_following then
        if oGT current_short current_long && oLE prev_short prev_long then
          if oLT current_rsi (some 70) then Signal.BUY else Signal.HOLD
        else if oLT current_short current_long && oGE prev_short prev_long then
          if oGT current_rsi (some 30) then Signal.SELL else Signal.HOLD
        else Signal.HOLD
      else
        if oGT current_short current_long then
          if oLT current_rsi (some 70) then Signal.BUY else Signal.HOLD
        else if oLT current_short current_long then
          if oGT current_rsi (some 30) then Signal.SELL else Signal.HOLD
        else Signal.HOLD
    ⟨signal, [("EMA_short", current_short), ("EMA_long", current_long),
              ("RSI", current_rsi), ("Price", closes.getLast?)]⟩

/-- `rsi_strategy`. -/
def rsi_strategy (closes : List ℚ) (period : ℕ) (oversold overbought : ℚ) :
    StratResult :=
  if closes.length < period then ⟨Signal.HOLD, []⟩
  else
    let r := rsiLast closes period
    ⟨if oLT r (some oversold) then Signal.BUY
      else if oGT r (some overbought) then Signal.SELL
      else Signal.HOLD,
     [("RSI", r), ("Price", closes.getLast?)]⟩

/-- `bollinger_bands_strategy`.  `rolling(period).std()` is the sample
standard deviation (`ddof=1`), needing the external square root and at
least two rows. -/
def bollinger_bands_strategy (sqrtFn : ℚ → ℚ) (closes : List ℚ) (period : ℕ)
    (std_dev : ℚ) : StratResult :=
  if closes.length < period then ⟨Signal.HOLD, []⟩
  else
    let middle := smaLast closes period
    let std : Option ℚ :=
      if 2 ≤ period ∧ period ≤ closes.length then
        let w := lastN closes period
        let μ := listSum w / (period : ℚ)
        some (sqrtFn (listSum (w.map fun x => (x - μ) ^ 2) / ((period : ℚ) - 1)))
      else none
    let upper : Option ℚ :=
      match middle, std with
      | some m, some s => some (m + s * std_dev)
      | _, _ => none
    let lower : Option ℚ :=
      match middle, std with
      | some m, some s => some (m - s * std_dev)
      | _, _ => none
    let price := closes.getLast?
    ⟨if oLE price lower then Signal.BUY
      else if oGE price upper then Signal.SELL
      else Signal.HOLD,
     [("BB_Upper", upper), ("BB_Middle", middle), ("BB_Lower", lower),
      ("Price", price)]⟩

/-- `generate_signal`: dispatch on the strategy tag, then the optional
sentiment overlay (disabled by `USE_SENTIMENT_ANALYSIS = False` in the
shipped config; `sentiment` stands for `fetch_news_sentiment(symbol)`). -/
def generate_signal (sqrtFn : ℚ → ℚ) (closes : List ℚ) (symbol : String)
    (strategy_type : String) (sentiment : Option ℚ) : StratResult :=
  let base :=
    if strategy_type = "SMA_CROSSOVER" then
      sma_crossover_strategy closes STRATEGY_CONFIG.sma_short STRATEGY_CONFIG.sma_long
        STRATEGY_CONFIG.rsi_period STRATEGY_CONFIG.trend_following
        STRATEGY_CONFIG.crossover_only
    else if strategy_type = "EMA_CROSSOVER" then
      ema_crossover_strategy closes STRATEGY_CONFIG.ema_short STRATEGY_CONFIG.ema_long
        STRATEGY_CONFIG.rsi_period STRATEGY_CONFIG.trend_following
        STRATEGY_CONFIG.crossover_only
    else if strategy_type = "RSI" then
      rsi_strategy closes STRATEGY_CONFIG.rsi_period STRATEGY_CONFIG.rsi_oversold
        STRATEGY_CONFIG.rsi_overbought
    else if strategy_type = "BOLLINGER" then
      bollinger_bands_strategy sqrtFn closes STRATEGY_CONFIG.bollinger_period
        STRATEGY_CONFIG.bollinger_std
    else
      sma_crossover_strategy closes STRATEGY_CONFIG.sma_short STRATEGY_CONFIG.sma_long
        STRATEGY_CONFIG.rsi_period STRATEGY_CONFIG.trend_following
        STRATEGY_CONFIG.crossover_only
  if USE_SENTIMENT_ANALYSIS then
    match sentiment with
    | none => base
    | some s =>
        let sig :=
          if 0.2 < s ∧ base.signal = Signal.HOLD then Signal.BUY
          else if s < -0.2 ∧ base.signal = Signal.HOLD then Signal.SELL
          else if 0.5 < s ∧ base.signal = Signal.SELL then Signal.HOLD
          else if s < -0.5 ∧ base.signal = Signal.BUY then Signal.HOLD
          else base.signal
        ⟨sig, base.indicators ++ [("Sentiment", some s)]⟩
  else base

/-- Spec-side (C4): the short SMA at the previous bar. -/
def prevSmaLast (closes : List ℚ) (w : ℕ) : Option ℚ :=
  smaLast closes.dropLast w

/-- Spec-side (C4), from the claim's words: a golden cross — "the short
SMA was ≤ the long SMA on the previous bar and is > it on the current
bar". -/
def specGoldenCross (closes : List ℚ) (sw lw : ℕ) : Bool :=
  oGT (smaLast closes sw) (smaLast closes lw) &&
  oLE (prevSmaLast closes sw) (prevSmaLast closes lw)

/-- Spec-side (C4): a death cross — "short was ≥ long previously and is
< it now". -/
def specDeathCross (closes : List ℚ) (sw lw : ℕ) : Bool :=
  oLT (smaLast closes sw) (smaLast closes lw) &&
  oGE (prevSmaLast closes sw) (prevSmaLast closes lw)

/-- The RSI(14) value the crossover filter compares (the source falls
back to the neutral 50 when fewer than 14 bars exist). -/
def rsiFilter (closes : List ℚ) : Option ℚ :=
  if 14 ≤ closes.length then rsiLast closes 14 else some 50

/-! ### Backtest records and the performance evaluator (`optimizer.py`) -/

/-- A backtest trade record (`self.trades` entries in `backtest.py`;
timestamped by the simulated date).  The `reason` string is reduced to a
marker: `stop_exit = true` for stop-loss closes, `false` for signal
trades. -/
structure Trade where
  date : ℕ
  symbol : String
  action : TAct
  quantity : ℤ
  price : ℚ
  stop_exit : Bool
deriving DecidableEq, Repr

/-- A daily snapshot (`self.results` entries in `backtest.py`). -/
structure Snapshot where
  date : ℕ
  total_value : ℚ
  cash : ℚ
  pnl : ℚ
  pnl_percent : ℚ
deriving DecidableEq, Repr

/-- The fields of a backtest result dict that `evaluate_performance`
reads; `none` stands for a falsy dict or one without `total_return`. -/
structure RunInput where
  total_return : ℚ
  trades : List Trade
  daily_results : List Snapshot
deriving DecidableEq, Repr

/-- The metrics dict returned by `evaluate_performance`; keys absent in
some branches of the source are `Option`s.  `sharpe` is the source's
`sharpe_ratio` key. -/
structure Metrics where
  total_return : ℚ
  sharpe : ℚ
  max_drawdown : ℚ
  win_rate : ℚ
  profit_factor : ℚ
  score : ℚ
  num_trades : Option ℕ
  total_profit : Option ℚ
  total_loss : Option ℚ
deriving DecidableEq, Repr

/-- Max drawdown over the daily `total_value` series: running max, then
the minimum of `(value - running_max)/running_max * 100`.  (The first
drawdown entry is `(v-v)/v*100`; at `v = 0` pandas produces a skipped
`nan` where total `ℚ` division gives an included `0`.) -/
def maxDrawdown (vals : List ℚ) : ℚ :=
  match vals with
  | [] => 0
  | v :: rest =>
      (rest.foldl
        (fun acc x =>
          let rm := max acc.1 x
          (rm, min acc.2 ((x - rm) / rm * 100)))
        (v, (v - v) / v * 100)).2

/-- Sample standard deviation (pandas `ddof=1`) via the external root. -/
def sampleStd (sqrtFn : ℚ → ℚ) (xs : List ℚ) : ℚ :=
  let μ := listSum xs / (xs.length : ℚ)
  sqrtFn (listSum (xs.map fun x => (x - μ) ^ 2) / ((xs.length : ℚ) - 1))

/-- The consecutive-pair trade scan of `evaluate_performance`, returning
`(winning_trades, total_profit, total_loss)`: each adjacent BUY→SELL
pair contributes `(sell.price - buy.price) * buy.quantity`. -/
def tradeStats (trades : List Trade) : ℕ × ℚ × ℚ :=
  (trades.zip (trades.drop 1)).foldl
    (fun acc p =>
      if p.1.action = TAct.BUY ∧ p.2.action = TAct.SELL then
        let profit := (p.2.price - p.1.price) * (p.1.quantity : ℚ)
        if 0 < profit then (acc.1 + 1, acc.2.1 + profit, acc.2.2)
        else (acc.1, acc.2.1, acc.2.2 + |profit|)
      else acc)
    (0, 0, 0)

/-- `StrategyOptimizer.evaluate_performance`. -/
def evaluate_performance (sqrtFn : ℚ → ℚ) (results : Option RunInput) : Metrics :=
  match results with
  | none =>
      { total_return := -100, sharpe := 0, max_drawdown := 100, win_rate := 0,
        profit_factor := 0, score := -1000, num_trades := none,
        total_profit := none, total_loss := none }
  | some r =>
      if r.trades.length = 0 then
        { total_return := r.total_return, sharpe := 0, max_drawdown := 0,
          win_rate := 0, profit_factor := 0, score := r.total_return,
          num_trades := some 0, total_profit := none, total_loss := none }
      else
        let stats := tradeStats r.trades
        let winning_trades := stats.1
        let total_profit := stats.2.1
        let total_loss := stats.2.2
        let num_trades := r.trades.length
        let win_rate : ℚ :=
          if 0 < num_trades then (winning_trades : ℚ) / (num_trades : ℚ) * 100 else 0
        let profit_factor :=
          if 0 < total_loss then total_profit / total_loss
          else if 0 < total_profit then total_profit else 0
        let max_drawdown := maxDrawdown (r.daily_results.map (·.total_value))
        let sharpe :=
          if 1 < r.daily_results.length then
            let returns := r.daily_results.map (·.pnl_percent)
            let sd := sampleStd sqrtFn returns
            if 0 < sd then listSum returns / (returns.length : ℚ) / sd * sqrtFn 252
            else 0
          else 0
        let score :=
          r.total_return * 0.4 + sharpe * 10 * 0.2 + win_rate * 0.2 +
            min profit_factor 5 * 10 * 0.1 + max max_drawdown (-50) * 0.1
        { total_return := r.total_return, sharpe := sharpe,
          max_drawdown := max_drawdown, win_rate := win_rate,
          profit_factor := profit_factor, score := score,
          num_trades := some num_trades, total_profit := some total_profit,
          total_loss := some total_loss }

/-- Spec-side (C6): the composite-score formula of the claim, read over
the metric fields of a returned record. -/
def specScore (m : Metrics) : ℚ :=
  0.4 * m.total_return + 0.2 * (m.sharpe * 10) + 0.2 * m.win_rate +
    0.1 * min m.profit_factor 5 * 10 + 0.1 * max m.max_drawdown (-50)

/-! ### Risk-based position sizing (the BUY branch of `Backtest.run`) -/

/-- Python `int(x)` on a float: truncation toward zero. -/
def pyInt (q : ℚ) : ℤ := if q < 0 then -⌊-q⌋ else ⌊q⌋

/-- The position size computed in the BUY branch of `Backtest.run`
(risk 1% of portfolio over a 2.5×ATR stop distance, capped by 20% of
portfolio, the configured max position size and available cash, then
raised to at least one share). -/
def buyQty (portfolio_value current_atr current_price cash : ℚ)
    (max_position_size : ℤ) : ℤ :=
  let risk_per_trade := portfolio_value * 0.01
  let stop_distance := current_atr * 2.5
  let qty_by_risk :=
    if 0 < stop_distance then pyInt (risk_per_trade / stop_distance) else 1
  let max_position_value := portfolio_value * 0.20
  let qty_by_cap :=
    if 0 < current_price then pyInt (max_position_value / current_price) else 0
  let max_by_cash :=
    if 0 < current_price then pyInt (cash / current_price) else 0
  max 1 (min (min (min qty_by_risk qty_by_cap) max_position_size) max_by_cash)

/-- The executed BUY decision of `Backtest.run`: `some qty` when
`qty > 0 and cash >= current_price * qty`, otherwise the trade is
skipped. -/
def buyDecision (portfolio_value current_atr current_price cash : ℚ)
    (max_position_size : ℤ) : Option ℤ :=
  let qty := buyQty portfolio_value current_atr current_price cash max_position_size
  if 0 < qty ∧ current_price * (qty : ℚ) ≤ cash then some qty else none

/-- Spec-side (C3): the sizing rule in the claim's words — the minimum
of the four caps, raised to one share only when some cap is nonzero and
cash covers that share, otherwise skipped. -/
def specBuyDecision (pv atr price cash : ℚ) (maxPos : ℤ) : Option ℤ :=
  let a := ⌊pv * 0.01 / (atr * 2.5)⌋
  let b := ⌊pv * 0.20 / price⌋
  let d := ⌊cash / price⌋
  let m := min (min (min a b) maxPos) d
  if 1 ≤ m then some m
  else if (1 ≤ a ∨ 1 ≤ b ∨ 1 ≤ maxPos ∨ 1 ≤ d) ∧ price * 1 ≤ cash then some 1
  else none

/-! ### The day-by-day simulation loop (`Backtest.run`) -/

/-- One OHLC bar (the columns the engine reads; open/volume dropped).
Dates are abstract ordered timestamps. -/
structure Bar where
  date : ℕ
  high : ℚ
  low : ℚ
  close : ℚ
deriving DecidableEq, Repr

/-- Dict read on the fetched/filtered historical-data mapping. -/
def lookupBars : List (String × List Bar) → String → Option (List Bar)
  | [], _ => none
  | e :: rest, s => if e.1 = s then some e.2 else lookupBars rest s

/-- Filtering a symbol's bars to the requested `[start, end]` range. -/
def filterRange (bars : List Bar) (startDate endDate : ℕ) : List Bar :=
  bars.filter fun b => startDate ≤ b.date ∧ b.date ≤ endDate

/-- `all_dates`: the sorted union of the filtered symbols' dates. -/
def allDates (hist : List (String × List Bar)) : List ℕ :=
  List.insertionSort (· ≤ ·)
    ((hist.foldl (fun acc sb => acc ++ sb.2.map (·.date)) []).dedup)

/-- The true-range series: `max(high-low, |high-prev_close|,
|low-prev_close|)`; the first bar has no previous close (its shifted
terms are `nan`) and `pandas` `max` skips them, leaving `high-low`. -/
def trList (bars : List Bar) : List ℚ :=
  match bars with
  | [] => []
  | b :: _ =>
      (b.high - b.low) ::
        (bars.tail.zip bars).map fun p =>
          max (p.1.high - p.1.low) (max |p.1.high - p.2.close| |p.1.low - p.2.close|)

/-- `calculate_atr` at the last row: rolling mean of the true range. -/
def atrLast (bars : List Bar) (period : ℕ) : ℚ :=
  listSum (lastN (trList bars) period) / (period : ℚ)

/-- The sizing ATR of the BUY branch: ATR(14) when at least 14 bars
exist, else 2% of the current price. -/
def currentAtr (slice : List Bar) (price : ℚ) : ℚ :=
  if 14 ≤ slice.length then atrLast slice 14 else price * 0.02

/-- The mutable state of one backtest run: the portfolio, `self.trades`
and `self.results` (the daily snapshots). -/
structure BTState where
  portfolio : Portfolio
  trades : List Trade
  daily : List Snapshot
deriving Repr

/-- The stop-loss close pass of one simulated date (`backtest.py`
lines 107–129), processing alerted symbols in order: each with a
position record is "fully closed" via
`remove_position(symbol, -quantity, price)` with
`price = prices.get(symbol, pos.current_price)`, and a stop-exit trade
is appended. -/
def stopPhase (date : ℕ) (prices : List (String × ℚ)) :
    List String → Portfolio → List Trade → Portfolio × List Trade
  | [], pf, trades => (pf, trades)
  | symbol :: rest, pf, trades =>
      match lookupPos pf.positions symbol with
      | some pos =>
          let qty := pos.quantity
          let price := (lookupQ prices symbol).getD pos.current_price
          stopPhase date prices rest
            (pf.remove_position symbol (-qty) price)
            (trades ++ [{ date := date, symbol := symbol
                          action := if 0 < qty then TAct.SELL else TAct.BUY
                          quantity := |qty|, price := price, stop_exit := true }])
      | none => stopPhase date prices rest pf trades

/-- The per-symbol signal pass of one simulated date (`backtest.py`
lines 132–214).  `sig`, `atrOf` and `eligible` stand for what the loop
computes from that date's data slices: the `generate_signal` result, the
sizing ATR, and "the symbol has a slice of at least 20 bars".  The read
`prices[symbol]` is only reachable for symbols with a slice, which always
have a price; `getD 0` covers the unreachable miss. -/
def signalPhase (date : ℕ) (prices : List (String × ℚ)) (max_position_size : ℤ)
    (sig : String → Signal) (atrOf : String → ℚ) (eligible : String → Bool) :
    List String → Portfolio → List Trade → Portfolio × List Trade
  | [], pf, trades => (pf, trades)
  | symbol :: rest, pf, trades =>
      if eligible symbol then
        let current_price := (lookupQ prices symbol).getD 0
        let current_position := pf.get_position_quantity symbol
        if sig symbol = Signal.BUY ∧ current_position = 0 then
          let current_atr := atrOf symbol
          let r := pf.get_total_value prices
          match buyDecision r.1 current_atr current_price r.2.cash max_position_size with
          | some qty =>
              signalPhase date prices max_position_size sig atrOf eligible rest
                (r.2.add_position symbol qty current_price (some current_atr))
                (trades ++ [{ date := date, symbol := symbol, action := TAct.BUY
                              quantity := qty, price := current_price
                              stop_exit := false }])
          | none => signalPhase date prices max_position_size sig atrOf eligible rest r.2 trades
        else if sig symbol = Signal.SELL ∧ 0 < current_position then
          signalPhase date prices max_position_size sig atrOf eligible rest
            (pf.remove_position symbol (-current_position) current_price)
            (trades ++ [{ date := date, symbol := symbol, action := TAct.SELL
                          quantity := current_position, price := current_price
                          stop_exit := false }])
        else signalPhase date prices max_position_size sig atrOf eligible rest pf trades
      else signalPhase date prices max_position_size sig atrOf eligible rest pf trades

/-- One simulated date of `Backtest.run` (lines 85–225): update prices,
evaluate and execute trailing-stop closes, run the signal pass over the
symbols, then append the daily snapshot. -/
def dayStep (symbols : List String) (max_position_size : ℤ)
    (prices : List (String × ℚ)) (sig : String → Signal) (atrOf : String → ℚ)
    (eligible : String → Bool) (date : ℕ) (st : BTState) : BTState :=
  let pf := st.portfolio.update_prices prices
  let ra := pf.check_risk_limits prices
  let sp := stopPhase date prices ra.1 ra.2 st.trades
  let fold := signalPhase date prices max_position_size sig atrOf eligible symbols sp.1 sp.2
  let tv := fold.1.get_total_value prices
  let tp := tv.2.get_total_pnl prices
  let pp := tp.2.get_total_pnl_percent prices
  { portfolio := pp.2
    trades := fold.2
    daily := st.daily ++ [{ date := date, total_value := tv.1, cash := pp.2.cash
                            pnl := tp.1, pnl_percent := pp.1 }] }

/-- The result dict of a completed `Backtest.run` (the source reports the
global `INITIAL_CASH` and measures the return against it). -/
structure RunSummary where
  initial_cash : ℚ
  final_value : ℚ
  total_return : ℚ
  total_pnl : ℚ
  num_trades : ℕ
  trades : List Trade
  daily_results : List Snapshot
  buy_hold_return : ℚ
  buy_hold_returns : List (String × ℚ)
  vs_buy_hold : ℚ
deriving Repr

/-- The data slice for a symbol as of a date (bars with index ≤ date);
`none` when the symbol is missing or the slice is empty — the loop
`continue`s in both cases. -/
def sliceFor (hist : List (String × List Bar)) (symbol : String) (date : ℕ) :
    Option (List Bar) :=
  match lookupBars hist symbol with
  | some bars =>
      let sl := bars.filter fun b => b.date ≤ date
      if sl = [] then none else some sl
  | none => none

/-- The per-date price dict: each sliced symbol's last close. -/
def pricesFor (hist : List (String × List Bar)) (symbols : List String)
    (date : ℕ) : List (String × ℚ) :=
  symbols.filterMap fun s =>
    match sliceFor hist s date with
    | some sl => some (s, (((sl.map (·.close)).getLast?).getD 0))
    | none => none

/-- The signal the loop computes for a symbol on a date. -/
def sigFor (sqrtFn : ℚ → ℚ) (hist : List (String × List Bar))
    (strategy_type : String) (date : ℕ) (s : String) : Signal :=
  match sliceFor hist s date with
  | some sl => (generate_signal sqrtFn (sl.map (·.close)) s strategy_type none).signal
  | none => Signal.HOLD

/-- The sizing ATR the loop computes for a symbol on a date. -/
def atrFor (hist : List (String × List Bar)) (date : ℕ) (s : String) : ℚ :=
  match sliceFor hist s date with
  | some sl => currentAtr sl (((sl.map (·.close)).getLast?).getD 0)
  | none => 0

/-- Whether the loop evaluates a symbol on a date (a nonempty slice of at
least 20 bars). -/
def eligibleFor (hist : List (String × List Bar)) (date : ℕ) (s : String) : Bool :=
  match sliceFor hist s date with
  | some sl => 20 ≤ sl.length
  | none => false

/-- `Backtest.run`.  `historical` is the `fetch_historical_data` result
(an empty mapping when no symbol has data); the two `none` returns are
the source's two empty-dict early returns. -/
def runBacktest (sqrtFn : ℚ → ℚ) (historical : List (String × List Bar))
    (symbols : List String) (strategy_type : String) (initial_cash? : Option ℚ)
    (startDate endDate : ℕ) (max_position_size : ℤ) : Option RunSummary :=
  if historical = [] then none
  else
    let hist := historical.map fun sb => (sb.1, filterRange sb.2 startDate endDate)
    let dates := allDates hist
    if dates = [] then none
    else
      let st0 : BTState :=
        { portfolio := Portfolio.init initial_cash?, trades := [], daily := [] }
      let final := dates.foldl
        (fun st date =>
          dayStep symbols max_position_size (pricesFor hist symbols date)
            (sigFor sqrtFn hist strategy_type date) (atrFor hist date)
            (eligibleFor hist date) date st)
        st0
      let lastDate := (dates.getLast?).getD 0
      let tv := final.portfolio.get_total_value (pricesFor hist symbols lastDate)
      let final_value := tv.1
      let total_return := (final_value - INITIAL_CASH) / INITIAL_CASH * 100
      let bh := symbols.foldl
        (fun acc s =>
          match lookupBars hist s with
          | some bars =>
              if 0 < bars.length then
                let start_price := (((bars.map (·.close)).head?).getD 0)
                let end_price := (((bars.map (·.close)).getLast?).getD 0)
                let symbol_return := (end_price - start_price) / start_price * 100
                (acc.1 + symbol_return / (symbols.length : ℚ),
                 acc.2 ++ [(s, symbol_return)])
              else acc
          | none => acc)
        ((0 : ℚ), ([] : List (String × ℚ)))
      some
        { initial_cash := INITIAL_CASH
          final_value := final_value
          total_return := total_return
          total_pnl := final_value - INITIAL_CASH
          num_trades := final.trades.length
          trades := final.trades
          daily_results := final.daily
          buy_hold_return := bh.1
          buy_hold_returns := bh.2
          vs_buy_hold := total_return - bh.1 }

/-- A symbol holds an open (nonzero) position record. -/
def hasOpenPos (pf : Portfolio) (s : String) : Prop :=
  ∃ pos, lookupPos pf.positions s = some pos ∧ pos.quantity ≠ 0

/-- The quantity recorded for a symbol (`none` when absent): what the
loop's `current_position` guard reads, keyed by record presence. -/
def posQty? (l : List (String × Position)) (s : String) : Option ℤ :=
  (lookupPos l s).map (·.quantity)

/-! ### Claim C1 — round trip through the simulation close path -/

/-- C1: the claim is FALSE on the code and the code contradicts its own
intent.  Opening with `add_position("A", 1, 100, atr=1)` and closing
through the simulation loop's close path `remove_position("A", -1, 100)`
(how `backtest.py` closes every position, commented "Pass negative
quantity to properly close long position") restores the cash, but
`pos.quantity -= quantity` computes `1 - (-1) = 2`: the position record
DOUBLES instead of reaching zero, and is never deleted — contradicting
the `remove_position` comment "Remove position if fully closed". -/
theorem roundTripCloseDoublesPosition :
    ((((Portfolio.init (some 10000)).add_position "A" 1 100 (some 1)).remove_position
        "A" (-1) 100).cash = 10000)
  ∧ ((lookupPos (((Portfolio.init (some 10000)).add_position "A" 1 100
        (some 1)).remove_position "A" (-1) 100).positions "A").map Position.quantity
      = some 2) := by
  constructor <;>
    norm_num [Portfolio.init, Portfolio.add_position, Portfolio.remove_position,
      Position.init, lookupPos, setPos, erasePos, atr_multiplier, INITIAL_CASH]

/-! ### Claim C2 — trailing-stop monotonicity -/

theorem update_price_quantity (pos : Position) (p : ℚ) :
    (pos.update_price p).quantity = pos.quantity := by
  unfold Position.update_price
  dsimp only
  split_ifs <;> rfl

theorem stop_mono_long (pos : Position) (p : ℚ) (h : 0 < pos.quantity) :
    pos.stop_loss_price ≤ (pos.update_price p).stop_loss_price := by
  unfold Position.update_price
  dsimp only
  split_ifs <;> first
    | linarith
    | (dsimp only; linarith)

theorem stop_mono_short (pos : Position) (p : ℚ) (h : pos.quantity < 0) :
    (pos.update_price p).stop_loss_price ≤ pos.stop_loss_price := by
  unfold Position.update_price
  dsimp only
  split_ifs <;> first
    | linarith
    | (dsimp only; linarith)

theorem stop_mono_long_many (pos : Position) (prices : List ℚ)
    (h : 0 < pos.quantity) :
    pos.stop_loss_price ≤ (updateMany pos prices).stop_loss_price := by
  induction prices generalizing pos with
  | nil => simp [updateMany]
  | cons p ps ih =>
      simp only [updateMany, List.foldl_cons]
      exact le_trans (stop_mono_long pos p h)
        (ih _ (by rw [update_price_quantity]; exact h))

theorem stop_mono_short_many (pos : Position) (prices : List ℚ)
    (h : pos.quantity < 0) :
    (updateMany pos prices).stop_loss_price ≤ pos.stop_loss_price := by
  induction prices generalizing pos with
  | nil => simp [updateMany]
  | cons p ps ih =>
      simp only [updateMany, List.foldl_cons]
      exact le_trans (ih _ (by rw [update_price_quantity]; exact h))
        (stop_mono_short pos p h)

theorem update_price_fixed_long (pos : Position) (p : ℚ) (h : 0 < pos.quantity)
    (hp : p ≤ pos.highest_price) :
    (pos.update_price p).stop_loss_price = pos.stop_loss_price ∧
    (pos.update_price p).highest_price = pos.highest_price := by
  unfold Position.update_price
  dsimp only
  split_ifs <;> first
    | exact ⟨rfl, rfl⟩
    | (exfalso; linarith)

theorem updateMany_fixed_long (pos : Position) (prices : List ℚ)
    (h : 0 < pos.quantity) (hp : ∀ p ∈ prices, p ≤ pos.highest_price) :
    (updateMany pos prices).stop_loss_price = pos.stop_loss_price ∧
    (updateMany pos prices).highest_price = pos.highest_price := by
  induction prices generalizing pos with
  | nil => simp [updateMany]
  | cons p ps ih =>
      simp only [updateMany, List.foldl_cons]
      have hfix := update_price_fixed_long pos p h (hp p (by simp))
      have hrest := ih (pos.update_price p)
        (by rw [update_price_quantity]; exact h)
        (by intro q hq; rw [hfix.2]; exact hp q (by simp [hq]))
      exact ⟨hrest.1.trans hfix.1, hrest.2.trans hfix.2⟩

theorem chain_gt_mem_lt (x : ℚ) (l : List ℚ)
    (h : List.Chain (fun a b => b < a) x l) : ∀ p ∈ l, p < x := by
  induction l generalizing x with
  | nil => simp
  | cons y ys ih =>
      cases h with
      | cons hxy hch =>
          intro p hp
          rcases List.mem_cons.mp hp with rfl | hp
          · exact hxy
          · exact (ih y hch p hp).trans hxy

theorem init_highest (s : String) (q : ℤ) (e : ℚ) (a : Option ℚ) :
    (Position.init s q e a).highest_price = e := by
  unfold Position.init
  split_ifs <;> rfl

theorem init_quantity (s : String) (q : ℤ) (e : ℚ) (a : Option ℚ) :
    (Position.init s q e a).quantity = q := by
  unfold Position.init
  split_ifs <;> rfl

/-- C2: over any sequence of `update_price` calls, a long position's
trailing stop never decreases (per step and over any whole price path);
on a strictly declining price path after entry it stays fixed; a short
position's stop never increases. -/
theorem trailingStopMonotone :
    (∀ (pos : Position) (p : ℚ), 0 < pos.quantity →
      pos.stop_loss_price ≤ (pos.update_price p).stop_loss_price)
  ∧ (∀ (pos : Position) (prices : List ℚ), 0 < pos.quantity →
      pos.stop_loss_price ≤ (updateMany pos prices).stop_loss_price)
  ∧ (∀ (s : String) (q : ℤ) (e : ℚ) (a : Option ℚ) (prices : List ℚ),
      0 < q → List.Chain (fun a b => b < a) e prices →
      (updateMany (Position.init s q e a) prices).stop_loss_price
        = (Position.init s q e a).stop_loss_price)
  ∧ (∀ (pos : Position) (p : ℚ), pos.quantity < 0 →
      (pos.update_price p).stop_loss_price ≤ pos.stop_loss_price)
  ∧ (∀ (pos : Position) (prices : List ℚ), pos.quantity < 0 →
      (updateMany pos prices).stop_loss_price ≤ pos.stop_loss_price) := by
  refine ⟨stop_mono_long, stop_mono_long_many, ?_, stop_mono_short, stop_mono_short_many⟩
  intro s q e a prices hq hch
  refine (updateMany_fixed_long _ prices ?_ ?_).1
  · rw [init_quantity]; exact hq
  · intro p hp
    rw [init_highest]
    exact le_of_lt (chain_gt_mem_lt e prices hch p hp)

theorem trailingStopMonotone_witness :
    ((0 : ℤ) < (Position.init "A" 1 100 (some 4)).quantity
      ∧ (Position.init "A" 1 100 (some 4)).stop_loss_price
          ≤ ((Position.init "A" 1 100 (some 4)).update_price 105).stop_loss_price)
  ∧ ((Position.init "A" 1 100 (some 4)).stop_loss_price
        ≤ (updateMany (Position.init "A" 1 100 (some 4)) [105, 95]).stop_loss_price)
  ∧ ((updateMany (Position.init "A" 1 100 (some 4)) [99, 98]).stop_loss_price
        = (Position.init "A" 1 100 (some 4)).stop_loss_price)
  ∧ (((Position.init "B" (-1) 100 (some 4)).update_price 95).stop_loss_price
        ≤ (Position.init "B" (-1) 100 (some 4)).stop_loss_price)
  ∧ ((updateMany (Position.init "B" (-1) 100 (some 4)) [95, 105]).stop_loss_price
        ≤ (Position.init "B" (-1) 100 (some 4)).stop_loss_price) :=
  ⟨⟨by simp [init_quantity], trailingStopMonotone.1 _ 105 (by simp [init_quantity])⟩,
   trailingStopMonotone.2.1 _ [105, 95] (by simp [init_quantity]),
   trailingStopMonotone.2.2.1 "A" 1 100 (some 4) [99, 98] (by decide)
     (by norm_num [List.chain_cons]),
   trailingStopMonotone.2.2.2.1 _ 95 (by simp [init_quantity]),
   trailingStopMonotone.2.2.2.2 _ [95, 105] (by simp [init_quantity])⟩

/-! ### Claim C10 — total percentage-P&L under degenerate denominators -/

/-- C10: `get_pnl_percent` returns `0` when the entry price is zero, and
`get_total_pnl_percent` returns `0` when `initial_cash` is zero; neither
divides by zero (the guard fires before the division). -/
theorem pnlPercentZeroDenominators :
    (∀ pos : Position, pos.entry_price = 0 → pos.get_pnl_percent = 0)
  ∧ (∀ (pf : Portfolio) (prices : List (String × ℚ)), pf.initial_cash = 0 →
      (pf.get_total_pnl_percent prices).1 = 0) := by
  constructor
  · intro pos h
    simp [Position.get_pnl_percent, h]
  · intro pf prices h
    have hic : (pf.get_total_value prices).2.initial_cash = pf.initial_cash := rfl
    simp [Portfolio.get_total_pnl_percent, hic, h]

theorem pnlPercentZeroDenominators_witness :
    (({ symbol := "A", quantity := 1, entry_price := 0, current_price := 5,
        atr := 1, stop_loss_price := 0, highest_price := 5,
        lowest_price := 0 : Position }).get_pnl_percent = 0)
  ∧ ((({ initial_cash := 0, cash := 7, positions := [], trade_history := [] :
        Portfolio }).get_total_pnl_percent []).1 = 0) :=
  ⟨pnlPercentZeroDenominators.1 _ rfl, pnlPercentZeroDenominators.2 _ [] rfl⟩


/-! ### Claim C4 — crossover-only SMA signal characterisation -/

theorem oLT_eq_false_of_oGT (a b : Option ℚ) (h : oGT a b = true) :
    oLT a b = false := by
  cases a <;> cases b <;> simp_all [oGT, oLT] <;> linarith

theorem oGT_eq_false_of_oLT (a b : Option ℚ) (h : oLT a b = true) :
    oGT a b = false := by
  cases a <;> cases b <;> simp_all [oGT, oLT] <;> linarith

/-- C4: in crossover-only mode, on a window of at least `long_window`
(≥ 2) bars, the SMA crossover strategy signals BUY exactly on a golden
cross whose RSI(14) filter value is < 70, SELL exactly on a death cross
whose RSI value is > 30; a cross failing its RSI filter is suppressed to
HOLD, and a bar with no cross yields HOLD. -/
theorem smaCrossoverCharacterization (closes : List ℚ) (sw lw : ℕ) (tf : Bool)
    (hlen : lw ≤ closes.length) (hlw : 2 ≤ lw) :
    ((sma_crossover_strategy closes sw lw 14 tf true).signal = Signal.BUY ↔
      (specGoldenCross closes sw lw = true ∧ oLT (rsiFilter closes) (some 70) = true))
  ∧ ((sma_crossover_strategy closes sw lw 14 tf true).signal = Signal.SELL ↔
      (specDeathCross closes sw lw = true ∧ oGT (rsiFilter closes) (some 30) = true))
  ∧ (specGoldenCross closes sw lw = true → oLT (rsiFilter closes) (some 70) = false →
      (sma_crossover_strategy closes sw lw 14 tf true).signal = Signal.HOLD)
  ∧ (specDeathCross closes sw lw = true → oGT (rsiFilter closes) (some 30) = false →
      (sma_crossover_strategy closes sw lw 14 tf true).signal = Signal.HOLD)
  ∧ (specGoldenCross closes sw lw = false → specDeathCross closes sw lw = false →
      (sma_crossover_strategy closes sw lw 14 tf true).signal = Signal.HOLD) := by
  have h1 : ¬ (closes.length < lw) := not_lt.mpr hlen
  have h2 : 1 < closes.length :=
    lt_of_lt_of_le (by norm_num) (le_trans hlw hlen)
  unfold sma_crossover_strategy specGoldenCross specDeathCross prevSmaLast rsiFilter
  simp only [if_neg h1, if_pos h2, Bool.true_or, if_true]
  split_ifs with hA hR hB hS <;>
    simp_all [Bool.and_eq_true, oLT_eq_false_of_oGT, oGT_eq_false_of_oLT]

theorem smaCrossoverCharacterization_witness :
    (sma_crossover_strategy [2, 1, 3] 1 2 14 false true).signal = Signal.BUY :=
  (smaCrossoverCharacterization [2, 1, 3] 1 2 false (by decide) (by decide)).1.mpr
    ⟨by norm_num [specGoldenCross, smaLast, prevSmaLast, lastN, listSum, oGT, oLE,
        List.dropLast],
     by norm_num [rsiFilter, oLT]⟩

/-! ### Claim C9 — unknown strategy tags fall back to SMA crossover -/

/-- C9: `generate_signal` with a strategy tag other than the four known
ones returns exactly the SMA crossover result on the same data. -/
theorem unknownStrategyFallsBackToSma (sqrtFn : ℚ → ℚ) (closes : List ℚ)
    (symbol : String) (strategy_type : String) (sentiment : Option ℚ)
    (h1 : strategy_type ≠ "SMA_CROSSOVER") (h2 : strategy_type ≠ "EMA_CROSSOVER")
    (h3 : strategy_type ≠ "RSI") (h4 : strategy_type ≠ "BOLLINGER") :
    generate_signal sqrtFn closes symbol strategy_type sentiment =
      sma_crossover_strategy closes STRATEGY_CONFIG.sma_short STRATEGY_CONFIG.sma_long
        STRATEGY_CONFIG.rsi_period STRATEGY_CONFIG.trend_following
        STRATEGY_CONFIG.crossover_only := by
  simp [generate_signal, h1, h2, h3, h4, USE_SENTIMENT_ANALYSIS]

theorem unknownStrategyFallsBackToSma_witness :
    generate_signal (fun _ => 0) [1, 2, 3] "AAPL" "MOMENTUM" none =
      sma_crossover_strategy [1, 2, 3] STRATEGY_CONFIG.sma_short STRATEGY_CONFIG.sma_long
        STRATEGY_CONFIG.rsi_period STRATEGY_CONFIG.trend_following
        STRATEGY_CONFIG.crossover_only :=
  unknownStrategyFallsBackToSma _ _ _ _ _ (by decide) (by decide) (by decide) (by decide)

/-! ### Claims C6/C7 — the performance evaluator -/

/-- C6, counterexample: on a zero-trade run result the returned score is
the raw `total_return` (the early return), NOT the composite formula over
the returned record's metrics (which would give `0.4 × total_return`), so
the claim as stated — "for every run result" — is false. -/
theorem scoreFormulaCounterexample :
    (evaluate_performance (fun _ => 0)
        (some { total_return := 10, trades := [], daily_results := [] })).score ≠
      specScore (evaluate_performance (fun _ => 0)
        (some { total_return := 10, trades := [], daily_results := [] })) := by
  norm_num [evaluate_performance, specScore]

/-- C6 (amended): for every run result record with at least one trade,
the returned composite score equals
`0.4·total_return + 0.2·(sharpe·10) + 0.2·win_rate +
 0.1·min(profit_factor,5)·10 + 0.1·max(max_drawdown,-50)` over the
metrics of the same returned record. -/
theorem scoreFormulaOnTradedRuns (sqrtFn : ℚ → ℚ) (r : RunInput)
    (h : r.trades ≠ []) :
    (evaluate_performance sqrtFn (some r)).score =
      specScore (evaluate_performance sqrtFn (some r)) := by
  have hlen : ¬ (r.trades.length = 0) := by simpa using h
  unfold evaluate_performance specScore
  dsimp only
  rw [if_neg hlen]
  dsimp only
  ring

theorem scoreFormulaOnTradedRuns_witness :
    (evaluate_performance (fun _ => 0)
        (some { total_return := 5,
                trades := [{ date := 0, symbol := "A", action := TAct.BUY,
                             quantity := 1, price := 100, stop_exit := false }],
                daily_results := [] })).score =
      specScore (evaluate_performance (fun _ => 0)
        (some { total_return := 5,
                trades := [{ date := 0, symbol := "A", action := TAct.BUY,
                             quantity := 1, price := 100, stop_exit := false }],
                daily_results := [] })) :=
  scoreFormulaOnTradedRuns _ _ (by simp)

/-- C7: a result with zero trades yields the degenerate metrics record —
`win_rate = 0`, `profit_factor = 0`, zero sharpe and drawdown,
`score = total_return`, `num_trades = 0` — with no division performed
(the branch returns constants before any divisor is formed). -/
theorem zeroTradesDegenerateMetrics (sqrtFn : ℚ → ℚ) (r : RunInput)
    (h : r.trades = []) :
    evaluate_performance sqrtFn (some r) =
      { total_return := r.total_return, sharpe := 0, max_drawdown := 0,
        win_rate := 0, profit_factor := 0, score := r.total_return,
        num_trades := some 0, total_profit := none, total_loss := none } := by
  unfold evaluate_performance
  dsimp only
  rw [if_pos (by simp [h])]

theorem zeroTradesDegenerateMetrics_witness :
    evaluate_performance (fun _ => 0)
        (some { total_return := 7, trades := [], daily_results := [] }) =
      { total_return := 7, sharpe := 0, max_drawdown := 0, win_rate := 0,
        profit_factor := 0, score := 7, num_trades := some 0,
        total_profit := none, total_loss := none } :=
  zeroTradesDegenerateMetrics _ _ rfl

/-! ### Claim C3 — risk-based BUY sizing -/

theorem pyInt_eq_floor (q : ℚ) (h : 0 ≤ q) : pyInt q = ⌊q⌋ := by
  unfold pyInt
  rw [if_neg (not_lt.mpr h)]

/-- C3: under positive price and ATR (and non-negative portfolio value
and cash), the executed BUY size is exactly the minimum of the four caps
— ⌊1% of portfolio / (ATR×2.5)⌋, ⌊20% of portfolio / price⌋, the
configured max shares, and ⌊cash/price⌋ — raised to a single share only
when some cap is nonzero and cash covers that share, and otherwise the
trade is skipped. -/
theorem buySizingMatchesSpec (pv atr price cash : ℚ) (maxPos : ℤ)
    (hpv : 0 ≤ pv) (hatr : 0 < atr) (hprice : 0 < price) (hcash : 0 ≤ cash) :
    buyDecision pv atr price cash maxPos = specBuyDecision pv atr price cash maxPos := by
  have hsd : (0 : ℚ) < atr * 2.5 := mul_pos hatr (by norm_num)
  have ha : pyInt (pv * 0.01 / (atr * 2.5)) = ⌊pv * 0.01 / (atr * 2.5)⌋ :=
    pyInt_eq_floor _ (div_nonneg (mul_nonneg hpv (by norm_num)) hsd.le)
  have hb : pyInt (pv * 0.20 / price) = ⌊pv * 0.20 / price⌋ :=
    pyInt_eq_floor _ (div_nonneg (mul_nonneg hpv (by norm_num)) hprice.le)
  have hd : pyInt (cash / price) = ⌊cash / price⌋ :=
    pyInt_eq_floor _ (div_nonneg hcash hprice.le)
  unfold buyDecision buyQty specBuyDecision
  dsimp only
  rw [if_pos hsd, if_pos hprice, if_pos hprice, ha, hb, hd]
  set m := min (min (min ⌊pv * 0.01 / (atr * 2.5)⌋ ⌊pv * 0.20 / price⌋) maxPos)
      ⌊cash / price⌋ with hm_def
  by_cases hm : 1 ≤ m
  · have hmax : max 1 m = m := max_eq_right hm
    have hmd : m ≤ ⌊cash / price⌋ := min_le_right _ _
    have hmq : (m : ℚ) ≤ cash / price :=
      le_trans (by exact_mod_cast hmd) (Int.floor_le _)
    have hpm : price * (m : ℚ) ≤ cash := by
      rw [mul_comm]
      exact (le_div_iff₀ hprice).mp hmq
    rw [hmax, if_pos ⟨lt_of_lt_of_le one_pos hm, hpm⟩, if_pos hm]
  · have hmax : max 1 m = 1 := max_eq_left (by omega)
    rw [hmax, if_neg hm]
    by_cases hpc : price * ((1 : ℤ) : ℚ) ≤ cash
    · have h1d : (1 : ℤ) ≤ ⌊cash / price⌋ := by
        rw [Int.le_floor]
        rw [le_div_iff₀ hprice]
        simpa using hpc
      rw [if_pos ⟨one_pos, by simpa using hpc⟩,
        if_pos ⟨Or.inr (Or.inr (Or.inr h1d)), by simpa using hpc⟩]
    · rw [if_neg fun hc => hpc (by simpa using hc.2),
        if_neg fun hc => hpc (by simpa using hc.2)]

theorem buySizingMatchesSpec_witness :
    buyDecision 10000 2 50 10000 10 = specBuyDecision 10000 2 50 10000 10 :=
  buySizingMatchesSpec 10000 2 50 10000 10 (by norm_num) (by norm_num)
    (by norm_num) (by norm_num)

/-! ### Claim C8 — empty-data / empty-range early returns -/

/-- C8: `run()` reports the empty/failure result (and raises nothing —
the function is total) exactly when the fetched mapping is empty or the
requested range leaves no trading dates. -/
theorem runEmptyIff (sqrtFn : ℚ → ℚ) (historical : List (String × List Bar))
    (symbols : List String) (strategy_type : String) (initial_cash? : Option ℚ)
    (startDate endDate : ℕ) (maxPos : ℤ) :
    runBacktest sqrtFn historical symbols strategy_type initial_cash?
        startDate endDate maxPos = none ↔
      (historical = [] ∨
        allDates (historical.map fun sb =>
          (sb.1, filterRange sb.2 startDate endDate)) = []) := by
  unfold runBacktest
  dsimp only
  split_ifs with h1 h2
  · simp [h1]
  · simp [h1, h2]
  · simp [h1, h2]

theorem runEmptyIff_witness :
    runBacktest (fun _ => 0) [] ["AAPL"] "SMA_CROSSOVER" none 0 100 10 = none :=
  (runEmptyIff (fun _ => 0) [] ["AAPL"] "SMA_CROSSOVER" none 0 100 10).mpr
    (Or.inl rfl)

/-! ### Claim C5 — dictionary and preservation lemmas -/

theorem lookupPos_setPos_self (l : List (String × Position)) (k : String)
    (p : Position) : lookupPos (setPos l k p) k = some p := by
  induction l with
  | nil => simp [setPos, lookupPos]
  | cons e rest ih =>
      by_cases h : e.1 = k <;> simp [setPos, lookupPos, h, ih]

theorem lookupPos_setPos_ne (l : List (String × Position)) (k : String)
    (p : Position) (s : String) (h : s ≠ k) :
    lookupPos (setPos l k p) s = lookupPos l s := by
  induction l with
  | nil => simp [setPos, lookupPos, Ne.symm h]
  | cons e rest ih =>
      by_cases h1 : e.1 = k
      · rw [show setPos (e :: rest) k p = (k, p) :: rest by simp [setPos, h1]]
        simp [lookupPos, Ne.symm h, h1 ▸ (Ne.symm h)]
      · by_cases h2 : e.1 = s <;> simp [setPos, lookupPos, h, h1, h2, ih]

theorem lookupPos_erasePos_ne (l : List (String × Position)) (k s : String)
    (h : s ≠ k) : lookupPos (erasePos l k) s = lookupPos l s := by
  induction l with
  | nil => simp [erasePos]
  | cons e rest ih =>
      by_cases h1 : e.1 = k
      · rw [show erasePos (e :: rest) k = rest by simp [erasePos, h1]]
        simp [lookupPos, h1 ▸ (Ne.symm h)]
      · by_cases h2 : e.1 = s <;> simp [erasePos, lookupPos, h, h1, h2, ih]

theorem lookupPos_append_single_ne (l : List (String × Position)) (k : String)
    (p : Position) (s : String) (h : s ≠ k) :
    lookupPos (l ++ [(k, p)]) s = lookupPos l s := by
  induction l with
  | nil => simp [lookupPos, Ne.symm h]
  | cons e rest ih =>
      by_cases h1 : e.1 = s <;> simp [lookupPos, h1, ih]

theorem lookupPos_map_qty (f : String × Position → Position)
    (hf : ∀ e, (f e).quantity = e.2.quantity) (l : List (String × Position))
    (s : String) :
    (lookupPos (l.map fun e => (e.1, f e)) s).map (·.quantity) =
      (lookupPos l s).map (·.quantity) := by
  induction l with
  | nil => rfl
  | cons e rest ih =>
      by_cases h : e.1 = s <;> simp [lookupPos, h, ih, hf]

theorem posQty?_update_prices (pf : Portfolio) (prices : List (String × ℚ))
    (s : String) :
    posQty? (pf.update_prices prices).positions s = posQty? pf.positions s := by
  induction prices generalizing pf with
  | nil => rfl
  | cons pr ps ih =>
      unfold Portfolio.update_prices
      cases hl : lookupPos pf.positions pr.1 with
      | none => exact ih pf
      | some pos =>
          rw [ih]
          unfold posQty?
          by_cases h : s = pr.1
          · subst h
            rw [lookupPos_setPos_self, hl]
            simp [update_price_quantity]
          · rw [lookupPos_setPos_ne _ _ _ _ h]

theorem posQty?_get_total_value (pf : Portfolio) (prices : List (String × ℚ))
    (s : String) :
    posQty? (pf.get_total_value prices).2.positions s = posQty? pf.positions s := by
  unfold Portfolio.get_total_value posQty?
  dsimp only
  refine lookupPos_map_qty _ ?_ _ _
  intro e
  cases lookupQ prices e.1 <;> simp [update_price_quantity]

theorem posQty?_remove_ne (pf : Portfolio) (k : String) (q : ℤ) (p : ℚ)
    (s : String) (h : s ≠ k) :
    posQty? (pf.remove_position k q p).positions s = posQty? pf.positions s := by
  unfold Portfolio.remove_position
  cases hl : lookupPos pf.positions k with
  | none => rfl
  | some pos =>
      dsimp only
      unfold posQty?
      split_ifs <;>
        simp [lookupPos_erasePos_ne _ _ _ h, lookupPos_setPos_ne _ _ _ _ h]

theorem posQty?_remove_close (pf : Portfolio) (k : String) (p : ℚ)
    (pos : Position) (hl : lookupPos pf.positions k = some pos)
    (hq : pos.quantity ≠ 0) :
    posQty? (pf.remove_position k (-pos.quantity) p).positions k =
      some (2 * pos.quantity) := by
  unfold Portfolio.remove_position
  rw [hl]
  dsimp only
  rw [if_neg (by simp : ¬ (|pos.quantity| < |(-pos.quantity)|))]
  rw [if_neg (by omega : ¬ (pos.quantity - -pos.quantity = 0))]
  unfold posQty?
  rw [lookupPos_setPos_self]
  simp [two_mul]


theorem posQty?_add_ne (pf : Portfolio) (k : String) (q : ℤ) (p : ℚ)
    (atr? : Option ℚ) (s : String) (h : s ≠ k) :
    posQty? (pf.add_position k q p atr?).positions s = posQty? pf.positions s := by
  unfold Portfolio.add_position
  cases hl : lookupPos pf.positions k with
  | none =>
      dsimp only
      unfold posQty?
      rw [lookupPos_append_single_ne _ _ _ _ h]
  | some pos =>
      dsimp only
      unfold posQty?
      rw [lookupPos_setPos_ne _ _ _ _ h]

theorem get_position_quantity_of_lookup (pf : Portfolio) (s : String)
    (pos : Position) (hl : lookupPos pf.positions s = some pos) :
    pf.get_position_quantity s = pos.quantity := by
  unfold Portfolio.get_position_quantity
  rw [hl]

theorem check_stop_loss_quantity_ne (pos : Position)
    (h : pos.check_stop_loss = true) : pos.quantity ≠ 0 := by
  unfold Position.check_stop_loss at h
  split_ifs at h with h1 h2
  · omega
  · omega

theorem mem_collectAlerts (l : List (String × Position)) (s : String)
    (h : s ∈ collectAlerts l) :
    ∃ pos, (s, pos) ∈ l ∧ pos.check_stop_loss = true := by
  induction l with
  | nil => simp [collectAlerts] at h
  | cons e rest ih =>
      unfold collectAlerts at h
      split_ifs at h with hc
      · rcases List.mem_cons.mp h with rfl | h'
        · exact ⟨e.2, by simp, hc⟩
        · rcases ih h' with ⟨pos, hm, hcs⟩
          exact ⟨pos, List.mem_cons_of_mem _ hm, hcs⟩
      · rcases ih h with ⟨pos, hm, hcs⟩
        exact ⟨pos, List.mem_cons_of_mem _ hm, hcs⟩

theorem lookup_of_mem_nodup (l : List (String × Position)) (s : String)
    (pos : Position) (hnd : (l.map Prod.fst).Nodup) (hm : (s, pos) ∈ l) :
    lookupPos l s = some pos := by
  induction l with
  | nil => simp at hm
  | cons e rest ih =>
      rw [List.map_cons] at hnd
      have hne := (List.nodup_cons.mp hnd).1
      have hnd2 := (List.nodup_cons.mp hnd).2
      rcases List.mem_cons.mp hm with rfl | hm'
      · simp [lookupPos]
      · by_cases h : e.1 = s
        · exfalso
          have hs : s ∈ rest.map Prod.fst := List.mem_map_of_mem Prod.fst hm'
          exact hne (h ▸ hs)
        · simp only [lookupPos, h, if_false]
          exact ih hnd2 hm'

theorem setPos_keys_of_mem (l : List (String × Position)) (k : String)
    (p : Position) (hl : (lookupPos l k).isSome) :
    (setPos l k p).map Prod.fst = l.map Prod.fst := by
  induction l with
  | nil => simp [lookupPos] at hl
  | cons e rest ih =>
      by_cases h : e.1 = k
      · simp [setPos, h]
      · have h2 : (lookupPos rest k).isSome := by simpa [lookupPos, h] using hl
        simp [setPos, h, ih h2]

theorem update_prices_keys (pf : Portfolio) (prices : List (String × ℚ)) :
    (pf.update_prices prices).positions.map Prod.fst =
      pf.positions.map Prod.fst := by
  induction prices generalizing pf with
  | nil => rfl
  | cons pr ps ih =>
      unfold Portfolio.update_prices
      cases hl : lookupPos pf.positions pr.1 with
      | none => exact ih pf
      | some pos =>
          rw [ih]
          exact setPos_keys_of_mem _ _ _ (by simp [hl])

theorem hasOpenPos_iff_posQty? (pf : Portfolio) (s : String) :
    hasOpenPos pf s ↔ ∃ q, posQty? pf.positions s = some q ∧ q ≠ 0 := by
  unfold hasOpenPos posQty?
  cases lookupPos pf.positions s <;> simp

theorem hasOpenPos_remove_close (pf : Portfolio) (k : String) (p : ℚ)
    (pos : Position) (hl : lookupPos pf.positions k = some pos)
    (hq : pos.quantity ≠ 0) :
    hasOpenPos (pf.remove_position k (-pos.quantity) p) k :=
  (hasOpenPos_iff_posQty? _ _).mpr
    ⟨2 * pos.quantity, posQty?_remove_close pf k p pos hl hq, by omega⟩

theorem hasOpenPos_remove_ne (pf : Portfolio) (k : String) (q : ℤ) (p : ℚ)
    (s : String) (h : s ≠ k) (hho : hasOpenPos pf s) :
    hasOpenPos (pf.remove_position k q p) s := by
  rcases (hasOpenPos_iff_posQty? pf s).mp hho with ⟨q', hq', h0⟩
  exact (hasOpenPos_iff_posQty? _ _).mpr
    ⟨q', by rw [posQty?_remove_ne _ _ _ _ _ h]; exact hq', h0⟩

theorem hasOpenPos_add_ne (pf : Portfolio) (k : String) (q : ℤ) (p : ℚ)
    (atr? : Option ℚ) (s : String) (h : s ≠ k) (hho : hasOpenPos pf s) :
    hasOpenPos (pf.add_position k q p atr?) s := by
  rcases (hasOpenPos_iff_posQty? pf s).mp hho with ⟨q', hq', h0⟩
  exact (hasOpenPos_iff_posQty? _ _).mpr
    ⟨q', by rw [posQty?_add_ne _ _ _ _ _ _ h]; exact hq', h0⟩

theorem hasOpenPos_get_total_value (pf : Portfolio) (prices : List (String × ℚ))
    (s : String) (hho : hasOpenPos pf s) :
    hasOpenPos (pf.get_total_value prices).2 s := by
  rcases (hasOpenPos_iff_posQty? pf s).mp hho with ⟨q', hq', h0⟩
  exact (hasOpenPos_iff_posQty? _ _).mpr
    ⟨q', by rw [posQty?_get_total_value]; exact hq', h0⟩

theorem stopPhase_spec (date : ℕ) (prices : List (String × ℚ))
    (alerts : List String) (pf : Portfolio) (trades : List Trade) (s : String)
    (hho : hasOpenPos pf s) :
    hasOpenPos (stopPhase date prices alerts pf trades).1 s ∧
    ∃ new, (stopPhase date prices alerts pf trades).2 = trades ++ new ∧
      ∀ t ∈ new, t.stop_exit = true := by
  induction alerts generalizing pf trades with
  | nil => exact ⟨hho, [], by simp [stopPhase], by simp⟩
  | cons a rest ih =>
      unfold stopPhase
      cases hl : lookupPos pf.positions a with
      | none => exact ih pf trades hho
      | some pos =>
          dsimp only
          have hho' : hasOpenPos
              (pf.remove_position a (-pos.quantity)
                ((lookupQ prices a).getD pos.current_price)) s := by
            by_cases hs : s = a
            · subst hs
              rcases hho with ⟨pos', hl', hq'⟩
              rw [hl'] at hl
              injection hl with hpp
              subst hpp
              exact hasOpenPos_remove_close pf s _ pos' hl' hq'
            · exact hasOpenPos_remove_ne pf a _ _ s hs hho
          rcases ih _ _ hho' with ⟨h1, new, h2, h3⟩
          refine ⟨h1,
            (⟨date, a, if 0 < pos.quantity then TAct.SELL else TAct.BUY,
              |pos.quantity|, (lookupQ prices a).getD pos.current_price,
              true⟩ : Trade) :: new, ?_, ?_⟩
          · rw [h2]
            simp
          · intro t ht
            rcases List.mem_cons.mp ht with rfl | ht'
            · rfl
            · exact h3 t ht'

theorem signalPhase_spec (date : ℕ) (prices : List (String × ℚ)) (maxPos : ℤ)
    (sig : String → Signal) (atrOf : String → ℚ) (eligible : String → Bool)
    (syms : List String) (pf : Portfolio) (trades : List Trade) (s : String)
    (hho : hasOpenPos pf s) :
    hasOpenPos (signalPhase date prices maxPos sig atrOf eligible syms pf trades).1 s ∧
    ∃ new, (signalPhase date prices maxPos sig atrOf eligible syms pf trades).2 =
        trades ++ new ∧
      ∀ t ∈ new, ¬ (t.symbol = s ∧ t.action = TAct.BUY ∧ t.stop_exit = false) := by
  induction syms generalizing pf trades with
  | nil => exact ⟨hho, [], by simp [signalPhase], by simp⟩
  | cons sym rest ih =>
      unfold signalPhase
      by_cases he : eligible sym = true
      · rw [if_pos he]
        dsimp only
        by_cases hbuy : sig sym = Signal.BUY ∧ pf.get_position_quantity sym = 0
        · rw [if_pos hbuy]
          have hsne : sym ≠ s := by
            intro heq
            subst heq
            rcases hho with ⟨pos, hl, hq⟩
            rw [get_position_quantity_of_lookup pf sym pos hl] at hbuy
            exact hq hbuy.2
          cases hbd : buyDecision (pf.get_total_value prices).1 (atrOf sym)
              ((lookupQ prices sym).getD 0) (pf.get_total_value prices).2.cash
              maxPos with
          | none =>
              exact ih _ _ (hasOpenPos_get_total_value pf prices s hho)
          | some qty =>
              have hho2 : hasOpenPos
                  ((pf.get_total_value prices).2.add_position sym qty
                    ((lookupQ prices sym).getD 0) (some (atrOf sym))) s :=
                hasOpenPos_add_ne _ _ _ _ _ s (Ne.symm hsne)
                  (hasOpenPos_get_total_value pf prices s hho)
              rcases ih _ _ hho2 with ⟨h1, new, h2, h3⟩
              refine ⟨h1,
                (⟨date, sym, TAct.BUY, qty, (lookupQ prices sym).getD 0, false⟩
                  : Trade) :: new, ?_, ?_⟩
              · rw [h2]
                simp
              · intro t ht
                rcases List.mem_cons.mp ht with rfl | ht'
                · rintro ⟨hts, _, _⟩
                  exact hsne hts
                · exact h3 t ht'
        · rw [if_neg hbuy]
          by_cases hsell : sig sym = Signal.SELL ∧ 0 < pf.get_position_quantity sym
          · rw [if_pos hsell]
            have hho2 : hasOpenPos
                (pf.remove_position sym (-(pf.get_position_quantity sym))
                  ((lookupQ prices sym).getD 0)) s := by
              by_cases hs : s = sym
              · subst hs
                rcases hho with ⟨pos, hl, hq⟩
                rw [get_position_quantity_of_lookup pf s pos hl]
                exact hasOpenPos_remove_close pf s _ pos hl hq
              · exact hasOpenPos_remove_ne pf sym _ _ s hs hho
            rcases ih _ _ hho2 with ⟨h1, new, h2, h3⟩
            refine ⟨h1,
              (⟨date, sym, TAct.SELL, pf.get_position_quantity sym,
                (lookupQ prices sym).getD 0, false⟩ : Trade) :: new, ?_, ?_⟩
            · rw [h2]
              simp
            · intro t ht
              rcases List.mem_cons.mp ht with rfl | ht'
              · rintro ⟨_, hact, _⟩
                simp at hact
              · exact h3 t ht'
          · rw [if_neg hsell]
            exact ih _ _ hho
      · rw [if_neg he]
        exact ih _ _ hho

/-- C5: a symbol whose trailing stop is triggered and closed on a
simulated date is not re-opened on that date: every trade record the
date appends is either a stop exit or, when it is a non-stop BUY, for a
different symbol.  (The stop close leaves a nonzero position record —
see C1 — so the loop's `current_position == 0` guard blocks any opening
BUY for the symbol.)  `hnd` is the Python-dict invariant that position
keys are unique. -/
theorem noReopenAfterStopExit (symbols : List String) (maxPos : ℤ)
    (prices : List (String × ℚ)) (sig : String → Signal) (atrOf : String → ℚ)
    (eligible : String → Bool) (date : ℕ) (st : BTState) (s : String)
    (hnd : (st.portfolio.positions.map Prod.fst).Nodup)
    (halert : s ∈ ((st.portfolio.update_prices prices).check_risk_limits prices).1) :
    ∃ new, (dayStep symbols maxPos prices sig atrOf eligible date st).trades =
        st.trades ++ new ∧
      ∀ t ∈ new, ¬ (t.symbol = s ∧ t.action = TAct.BUY ∧ t.stop_exit = false) := by
  have halert' :
      s ∈ collectAlerts
        (((st.portfolio.update_prices prices).update_prices prices).positions) := by
    simpa [Portfolio.check_risk_limits] using halert
  have hkeys :
      ((((st.portfolio.update_prices prices).update_prices prices).positions.map
        Prod.fst)).Nodup := by
    rw [update_prices_keys, update_prices_keys]
    exact hnd
  rcases mem_collectAlerts _ _ halert' with ⟨pos, hm, hc⟩
  have hl := lookup_of_mem_nodup _ _ _ hkeys hm
  have hho : hasOpenPos ((st.portfolio.update_prices prices).update_prices prices) s :=
    ⟨pos, hl, check_stop_loss_quantity_ne pos hc⟩
  rcases stopPhase_spec date prices
      ((st.portfolio.update_prices prices).check_risk_limits prices).1
      ((st.portfolio.update_prices prices).check_risk_limits prices).2
      st.trades s (by simpa [Portfolio.check_risk_limits] using hho)
    with ⟨hho1, new1, he1, hp1⟩
  rcases signalPhase_spec date prices maxPos sig atrOf eligible symbols _ _ s hho1
    with ⟨hho2, new2, he2, hp2⟩
  refine ⟨new1 ++ new2, ?_, ?_⟩
  · show (signalPhase date prices maxPos sig atrOf eligible symbols
        (stopPhase date prices
          ((st.portfolio.update_prices prices).check_risk_limits prices).1
          ((st.portfolio.update_prices prices).check_risk_limits prices).2
          st.trades).1
        (stopPhase date prices
          ((st.portfolio.update_prices prices).check_risk_limits prices).1
          ((st.portfolio.update_prices prices).check_risk_limits prices).2
          st.trades).2).2 = st.trades ++ (new1 ++ new2)
    rw [he2, he1, List.append_assoc]
  · intro t ht
    rcases List.mem_append.mp ht with h | h
    · rintro ⟨_, _, hf⟩
      rw [hp1 t h] at hf
      cases hf
    · exact hp2 t h

theorem noReopenAfterStopExit_witness :
    ∃ new,
      (dayStep ["A"] 10 [("A", 90)] (fun _ => Signal.BUY) (fun _ => 1)
          (fun _ => true) 7
          (⟨⟨10000, 9900, [("A", ⟨"A", 1, 100, 100, 1, 97.5, 100, 100⟩)], []⟩,
            [], []⟩ : BTState)).trades = [] ++ new ∧
      ∀ t ∈ new, ¬ (t.symbol = "A" ∧ t.action = TAct.BUY ∧ t.stop_exit = false) :=
  noReopenAfterStopExit ["A"] 10 [("A", 90)] (fun _ => Signal.BUY) (fun _ => 1)
    (fun _ => true) 7
    (⟨⟨10000, 9900, [("A", ⟨"A", 1, 100, 100, 1, 97.5, 100, 100⟩)], []⟩,
      [], []⟩ : BTState) "A"
    (by decide)
    (by norm_num [Portfolio.update_prices, Portfolio.check_risk_limits,
      collectAlerts, lookupPos, setPos, Position.update_price,
      Position.check_stop_loss, atr_multiplier])

end StockBot
